import Mathlib

/-!
Verification of the commutation-analysis engine and the symbolic power
operator of this repository.

The commutation rule engine and DAG builder (`is_commuting`,
`commutation_dag`) are not shipped in this slice of the sources (only their
test suite is), so they are modelled from the specification; the `Pow`
symbolic operator definitions are translated from
`pennylane/ops/op_math/pow_class.py`.
-/

namespace Spec2Proof

/-- Modelled from the spec: the recognized gate vocabulary of the
commutation rule engine.  The spec requires the vocabulary to be an
explicitly enumerated closed set; `QubitDensityMatrix` and `PauliRot`
stand for the operation kinds that the test suite exercises as *not*
in the vocabulary, and `CtrlMultiTarget` stands for a controlled
operation acting on more than one target wire (excluded from the
closed-form rule table). -/
inductive GateKind where
  | PauliX | PauliY | PauliZ | Hadamard | Identity
  | RX | RY | RZ | PhaseShift
  | SWAP | CNOT | CZ | CY | Toffoli | CSWAP | MultiControlledX
  | CRX | CRY | CRZ | CPhase | CRot | Rot | U2 | U3
  | Barrier | QFT
  | QubitDensityMatrix | PauliRot
  | CtrlMultiTarget
  deriving DecidableEq, Repr

/-- Modelled from the spec: an operator occurrence as the rule engine sees
it: a kind, an ordered sequence of wire labels and numeric parameters
(angles, represented exactly as rationals). -/
structure Operation where
  kind : GateKind
  wires : List Nat
  params : List Rat
  deriving DecidableEq, Repr

/-- Modelled from the spec: membership in the recognized gate vocabulary.
Unknown kinds are rejected, not silently approximated. -/
def supported : GateKind → Bool
  | .QubitDensityMatrix => false
  | .PauliRot => false
  | _ => true

/-- Modelled from the spec: a controlled operation acting on more than one
target wire, which the engine must reject rather than guess. -/
def multiTarget (op : Operation) : Bool :=
  op.kind == .CtrlMultiTarget

/-- Modelled from the spec: Barrier-type no-op markers (and QFT-type
black boxes) are treated as commuting with nothing: an explicit ordering
fence. -/
def nonCommuting : GateKind → Bool
  | .Barrier => true
  | .QFT => true
  | _ => false

/-- Printable name of a gate kind, used in error messages. -/
def kindName : GateKind → String
  | .PauliX => ("PauliX")
  | .PauliY => ("PauliY")
  | .PauliZ => ("PauliZ")
  | .Hadamard => ("Hadamard")
  | .Identity => ("Identity")
  | .RX => ("RX")
  | .RY => ("RY")
  | .RZ => ("RZ")
  | .PhaseShift => ("PhaseShift")
  | .SWAP => ("SWAP")
  | .CNOT => ("CNOT")
  | .CZ => ("CZ")
  | .CY => ("CY")
  | .Toffoli => ("Toffoli")
  | .CSWAP => ("CSWAP")
  | .MultiControlledX => ("MultiControlledX")
  | .CRX => ("CRX")
  | .CRY => ("CRY")
  | .CRZ => ("CRZ")
  | .CPhase => ("CPhase")
  | .CRot => ("CRot")
  | .Rot => ("Rot")
  | .U2 => ("U2")
  | .U3 => ("U3")
  | .Barrier => ("Barrier")
  | .QFT => ("QFT")
  | .QubitDensityMatrix => ("QubitDensityMatrix")
  | .PauliRot => ("PauliRot")
  | .CtrlMultiTarget => ("CtrlMultiTarget")

/-- Modelled from the spec: canonicalization of the parametrized rotation
families (Rot, U2, U3, CRot and the single-parameter rotations): fold the
parametrization to its simplest equivalent fundamental gate when the
parameters are at trivial values (all angles zero collapses to the
identity; specific angle patterns collapse Rot/U3/CRot to Y- or Z-type
rotations).  Returns the canonicalized kind and parameter list. -/
def simplifyKP : GateKind → List Rat → GateKind × List Rat
  | .Rot, [a, b, c] =>
      if b = 0 then (if c = -a then (.Identity, []) else (.RZ, [a + c]))
      else if a = 0 ∧ c = 0 then (.RY, [b])
      else (.Rot, [a, b, c])
  | .U3, [t, p, d] =>
      if t = 0 then (if d = -p then (.Identity, []) else (.PhaseShift, [p + d]))
      else if p = 0 ∧ d = 0 then (.RY, [t])
      else (.U3, [t, p, d])
  | .CRot, [a, b, c] =>
      if b = 0 then (if c = -a then (.Identity, []) else (.CRZ, [a + c]))
      else if a = 0 ∧ c = 0 then (.CRY, [b])
      else (.CRot, [a, b, c])
  | .RX, [t] => if t = 0 then (.Identity, []) else (.RX, [t])
  | .RY, [t] => if t = 0 then (.Identity, []) else (.RY, [t])
  | .RZ, [t] => if t = 0 then (.Identity, []) else (.RZ, [t])
  | .PhaseShift, [t] => if t = 0 then (.Identity, []) else (.PhaseShift, [t])
  | .CRX, [t] => if t = 0 then (.Identity, []) else (.CRX, [t])
  | .CRY, [t] => if t = 0 then (.Identity, []) else (.CRY, [t])
  | .CRZ, [t] => if t = 0 then (.Identity, []) else (.CRZ, [t])
  | .CPhase, [t] => if t = 0 then (.Identity, []) else (.CPhase, [t])
  | k, p => (k, p)

/-- Modelled from the spec: canonicalization applied to an operator; the
wires are untouched. -/
def simplify (op : Operation) : Operation :=
  { op with
    kind := (simplifyKP op.kind op.params).1
    params := (simplifyKP op.kind op.params).2 }

/-- Modelled from the spec: the algebraic action a (canonicalized) gate has
on one of its wires, the key of the gate-category lookup table.  Control
wires act diagonally in the computational basis, a CNOT/Toffoli target
acts as an X-type rotation, and so on.  `generic` is an action with no
known commutation identity. -/
inductive LocalAct where
  | idAct | diag | xAct | rxAct | yAct | ryAct | hAct | swapAct | generic
  deriving DecidableEq, Repr

/-- Modelled from the spec: the local action of a gate on wire `w`
(relevant only when `w` is one of the gate's wires).  For controlled
gates the position of `w` in the wire list decides whether it is a
control or a target. -/
def localAct (op : Operation) (w : Nat) : LocalAct :=
  let i := op.wires.indexOf w
  match op.kind with
  | .Identity => .idAct
  | .PauliX => .xAct
  | .PauliY => .yAct
  | .PauliZ => .diag
  | .Hadamard => .hAct
  | .RX => .rxAct
  | .RY => .ryAct
  | .RZ => .diag
  | .PhaseShift => .diag
  | .SWAP => .swapAct
  | .CNOT => if i = 0 then .diag else .xAct
  | .CY => if i = 0 then .diag else .yAct
  | .CZ => .diag
  | .Toffoli => if i < 2 then .diag else .xAct
  | .MultiControlledX => if i + 1 < op.wires.length then .diag else .xAct
  | .CSWAP => if i = 0 then .diag else .swapAct
  | .CRX => if i = 0 then .diag else .rxAct
  | .CRY => if i = 0 then .diag else .ryAct
  | .CRZ => .diag
  | .CPhase => .diag
  | .CRot => if i = 0 then .diag else .generic
  | _ => .generic

/-- Modelled from the spec: the static pairwise-consistent commutation
table on local actions: diagonal actions commute with diagonal actions,
X-type with X-type, Y-type with Y-type, the identity with everything;
SWAP-type and generic actions have no commutation identities. -/
def actComm : LocalAct → LocalAct → Bool
  | .idAct, _ => true
  | _, .idAct => true
  | .diag, .diag => true
  | .xAct, .xAct => true
  | .xAct, .rxAct => true
  | .rxAct, .xAct => true
  | .rxAct, .rxAct => true
  | .yAct, .yAct => true
  | .yAct, .ryAct => true
  | .ryAct, .yAct => true
  | .ryAct, .ryAct => true
  | .hAct, .hAct => true
  | _, _ => false

/-- Modelled from the spec: whether two operators act on at least one
common wire. -/
def sharesWire (A B : Operation) : Bool :=
  A.wires.any (fun w => decide (w ∈ B.wires))

/-- Modelled from the spec: the gate-category lookup: two gates sharing
wires commute when their local actions commute on every shared wire. -/
def commuteByTable (A B : Operation) : Bool :=
  (A.wires.filter (fun w => decide (w ∈ B.wires))).all
    (fun w => actComm (localAct A w) (localAct B w))

/-- Modelled from the spec: the layered commutation decision on
canonicalized operators: disjoint wires commute; an operator commutes
with itself; Barrier/QFT-type fences commute with nothing else; otherwise
the lookup table decides. -/
def commutingCore (A B : Operation) : Bool :=
  !(sharesWire A B) || (A == B) ||
    (!(nonCommuting A.kind || nonCommuting B.kind) && commuteByTable A B)

/-- Error raised by the rule engine on operators outside its closed
vocabulary or on multi-target controlled operations. -/
inductive CommError where
  | unsupportedOperation (msg : String)
  deriving DecidableEq, Repr

/-- Modelled from the spec: `commutes(op1, op2) -> bool` — rejects kinds
outside the vocabulary and multi-target controlled operations with an
`UnsupportedOperationError`, then canonicalizes both operands and applies
the layered decision procedure.  (The generic numeric matrix-commutator
fallback of the spec is not reachable here because the modelled table is
total on the modelled vocabulary.) -/
def is_commuting (A B : Operation) : Except CommError Bool :=
  if supported A.kind = false then
    .error (.unsupportedOperation (("Operation ") ++ kindName A.kind ++ (" not supported.")))
  else if supported B.kind = false then
    .error (.unsupportedOperation (("Operation ") ++ kindName B.kind ++ (" not supported.")))
  else if (multiTarget A || multiTarget B) = true then
    .error (.unsupportedOperation (("MultipleTargets controlled is not supported.")))
  else
    .ok (commutingCore (simplify A) (simplify B))

deriving instance DecidableEq for Except

/-- Recognizer for the engine's rejection outcome. -/
def isUnsupportedError : Except CommError Bool → Bool
  | .error (.unsupportedOperation _) => true
  | _ => false

/-- A commutation DAG: gate nodes in insertion order (the node index is
the list position), directed non-commutation edges between node indices,
and the side list of terminal observables. -/
structure CommutationDAG where
  nodes : List Operation
  edges : List (Nat × Nat)
  observables : List Operation
  deriving DecidableEq, Repr

/-- Modelled from the spec: compare an incoming operation, about to get
index `j`, against the prior nodes; each prior node that shares a wire
and does not commute contributes a directed edge into `j`.  A rule-engine
failure surfaces unchanged. -/
def edgesFromPrior : List (Nat × Operation) → Nat → Operation →
    Except CommError (List (Nat × Nat))
  | [], _, _ => .ok []
  | (i, opi) :: rest, j, opj =>
      match edgesFromPrior rest j opj with
      | .error e => .error e
      | .ok tail =>
          if sharesWire opi opj then
            match is_commuting opi opj with
            | .error e => .error e
            | .ok b => if b then .ok tail else .ok ((i, j) :: tail)
          else .ok tail

/-- Modelled from the spec: incremental DAG construction; `done` holds
the already-inserted nodes with their indices, `acc` the edges created
so far. -/
def buildEdgesAux : List (Nat × Operation) → List (Nat × Nat) → List Operation →
    Except CommError (List (Nat × Nat))
  | _, acc, [] => .ok acc
  | done, acc, op :: rest =>
      match edgesFromPrior done done.length op with
      | .error e => .error e
      | .ok es => buildEdgesAux (done ++ [(done.length, op)]) (acc ++ es) rest

/-- Modelled from the spec: the Commutation DAG Builder on a finite
ordered sequence of gate operators, with the terminal observables
recorded in a side list, not as DAG nodes. -/
def commutation_dag_from_sequence (ops obs : List Operation) :
    Except CommError CommutationDAG :=
  match buildEdgesAux [] [] ops with
  | .error e => .error e
  | .ok es => .ok { nodes := ops, edges := es, observables := obs }

/-- Reachability along the directed edges of an edge list: the
transitive closure, i.e. membership in a node's indirect successor
set. -/
inductive Reach (E : List (Nat × Nat)) : Nat → Nat → Prop where
  | step {i j : Nat} : (i, j) ∈ E → Reach E i j
  | tail {i k j : Nat} : Reach E i k → (k, j) ∈ E → Reach E i j

/-- Errors surfaced by the `commutation_dag` entry point: rule-engine
failures, or `ValueError`-class complaints about the input itself. -/
inductive DagError where
  | commutation (e : CommError)
  | valueError (msg : String)
  deriving DecidableEq, Repr

/-- Modelled from the spec: the circuit-like inputs accepted by the
`commutation_dag` transform: a quantum tape (an explicit operation
sequence), a quantum function (modelled by the operation sequence it
records when traced), or something that is none of these. -/
inductive DagInput where
  | tape (ops obs : List Operation)
  | func (ops obs : List Operation)
  | invalid
  deriving DecidableEq, Repr

/-- Modelled from the spec: the `commutation_dag(circuit)` entry point:
rejects inputs that are not a tape, QNode or quantum function, rejects a
function that records no quantum operation (as the repository test suite
requires), and otherwise builds the DAG from the recorded sequence. -/
def commutation_dag : DagInput → Except DagError CommutationDAG
  | .invalid => .error (.valueError (("Input is not a tape, QNode, or quantum function")))
  | .func [] _ => .error (.valueError (("Function contains no quantum operation")))
  | .func ops obs => (commutation_dag_from_sequence ops obs).mapError .commutation
  | .tape ops obs => (commutation_dag_from_sequence ops obs).mapError .commutation

/-! ## The symbolic power operator (`pennylane/ops/op_math/pow_class.py`) -/

/-- Errors of the operator interface used by `Pow`. -/
inductive OpError where
  | decompositionUndefined
  | sparseMatrixUndefined
  deriving DecidableEq, Repr

/-- The four dynamically mixed classes a `Pow` instance can have,
depending on whether the wrapped base is an Operation, an Observable,
both, or neither (`Pow.__new__`). -/
inductive PowClass where
  | operationObservable | operation | observable | plain
  deriving DecidableEq, Repr

/-- The dynamic class chosen by `Pow.__new__` from the base's
inheritance structure. -/
def mkPowClass (isOp isObs : Bool) : PowClass :=
  if isOp then (if isObs then .operationObservable else .operation)
  else (if isObs then .observable else .plain)

/-- A base operator as `Pow` sees it.  Its mutable parameter data lives
behind `dataRef`, a reference into the heap of parameter arrays, so that
Python's aliasing of nested mutable data is expressible. -/
structure BaseOp where
  name : String
  wires : List Nat
  dataRef : Nat
  inverse : Bool
  isOperation : Bool
  isObservable : Bool
  deriving DecidableEq, Repr, Inhabited

/-- The mutable object store: base-operator objects and parameter
arrays.  Python attribute mutation is modelled as an update of this
heap; object references are list indices. -/
structure Heap where
  bases : List BaseOp
  arrays : List (List Rat)
  deriving DecidableEq, Repr

/-- Dereference a base-operator object. -/
def getBase (h : Heap) (r : Nat) : BaseOp := h.bases.getD r default

/-- The parameter data of a base operator, read through its data
reference. -/
def readData (h : Heap) (b : BaseOp) : List Rat := h.arrays.getD b.dataRef []

/-- In-place mutation of the parameter array at reference `r`. -/
def writeData (h : Heap) (r : Nat) (v : List Rat) : Heap :=
  { h with arrays := h.arrays.set r v }

/-- The state of a constructed `Pow` object: the reference to the
wrapped base, the exponent `z` (a hyperparameter), the dynamic class and
the formatted name. -/
structure PowObj where
  baseRef : Nat
  z : Rat
  powClass : PowClass
  name : String
  deriving DecidableEq, Repr

/-- `Pow.__init__` (pow_class.py lines 152-167): if the supplied base is
flagged inverted, that flag is cleared — an in-place mutation of the
base object — and the exponent is negated; then the base reference and
exponent are stored and the name is formatted.  Returns the updated heap
together with the constructed object. -/
def Pow.init (h : Heap) (r : Nat) (z : Rat) : Heap × PowObj :=
  let b := getBase h r
  let z' := if b.inverse then -z else z
  let h' :=
    if b.inverse then { h with bases := h.bases.set r { b with inverse := false } } else h
  (h', { baseRef := r, z := z'
         powClass := mkPowClass b.isOperation b.isObservable
         name := b.name ++ ("**") ++ toString z' })

/-- `Pow.__copy__` (pow_class.py lines 136-149): a new object of the
same dynamic class; the attributes (exponent, name) are carried over,
the hyperparameters dictionary is copied, and its base entry is replaced
by `copy(self.base)` — Python's shallow copy: a fresh base object whose
fields, including the reference to the mutable parameter data, equal the
original's. -/
def Pow.copy (h : Heap) (p : PowObj) : Heap × PowObj :=
  (⟨h.bases ++ [getBase h p.baseRef], h.arrays⟩, { p with baseRef := h.bases.length })

/-- `Pow.decomposition` (pow_class.py lines 250-260): ask the base for
its native power decomposition `base.pow(z)` (`none` models a raised
`PowUndefinedError`); failing that, a positive integer exponent falls
back to `z` repetitions of the base; otherwise
`DecompositionUndefinedError` is raised. -/
def Pow.decomposition (basePow : Rat → Option (List BaseOp)) (base : BaseOp) (z : Rat) :
    Except OpError (List BaseOp) :=
  match basePow z with
  | some l => .ok l
  | none =>
      if z.den = 1 ∧ 0 < z.num then .ok (List.replicate z.num.toNat base)
      else .error .decompositionUndefined

/-- `Pow.compute_sparse_matrix` (pow_class.py lines 243-248): for an
integer exponent, delegate to the base's sparse matrix raised to that
power (the base's matrix together with the external scipy power operator
is abstracted as `baseMatPow`); for a non-integer exponent raise
`SparseMatrixUndefinedError`. -/
def Pow.compute_sparse_matrix (baseMatPow : Int → List (List Rat)) (z : Rat) :
    Except OpError (List (List Rat)) :=
  if z.den = 1 then .ok (baseMatPow z.num) else .error .sparseMatrixUndefined

/-- `PowOperation.inverse` getter (pow_class.py lines 50-52): always
`False`. -/
def PowOperation.inverse (_ : PowObj) : Bool := false

/-- `PowOperation.inverse` setter (pow_class.py lines 54-57): assigning
`True` raises `NotImplementedError`; any other assignment is silently
accepted and changes nothing. -/
def PowOperation.setInverse (p : PowObj) (b : Bool) : Except String PowObj :=
  if b = true then .error (("The inverse can not be set for a power operator"))
  else .ok p

/-- `PowOperation.inv` (pow_class.py lines 45-48): inversion is realized
by negating the exponent hyperparameter and reformatting the name from
the base's name; the base itself is untouched. -/
def PowOperation.inv (h : Heap) (p : PowObj) : PowObj :=
  { p with z := -p.z, name := (getBase h p.baseRef).name ++ ("**") ++ toString (-p.z) }

/-- The identity-equivalent parametrized rotations of the edge-case
policy: zero-angle Rot/U3/CRot and zero-angle single-parameter
(controlled) rotations and phases. -/
def zeroRotation (op : Operation) : Bool :=
  match op.kind, op.params with
  | .U3, [a, b, c] => a == 0 && b == 0 && c == 0
  | .Rot, [a, b, c] => a == 0 && b == 0 && c == 0
  | .CRot, [a, b, c] => a == 0 && b == 0 && c == 0
  | .RX, [t] => t == 0
  | .RY, [t] => t == 0
  | .RZ, [t] => t == 0
  | .PhaseShift, [t] => t == 0
  | .CRX, [t] => t == 0
  | .CRY, [t] => t == 0
  | .CRZ, [t] => t == 0
  | .CPhase, [t] => t == 0
  | _, _ => false

/-- A concrete base operator (an Operation, not an Observable) whose
parameter data is the array at heap reference 0. -/
def rxBase : BaseOp := ⟨("RX"), [0], 0, false, true, false⟩

/-- A concrete heap: one base object whose parameter array is `[1]`. -/
def rxHeap : Heap := ⟨[rxBase], [[1]]⟩

/-- A concrete `Pow(RX, 2)` object wrapping `rxBase`. -/
def rxPow : PowObj := ⟨0, 2, .operation, ("RX**2")⟩

/-- The heap and object produced by `Pow.__copy__` on `rxPow`. -/
def rxCopied : Heap × PowObj := Pow.copy rxHeap rxPow

/-- The heap after mutating, in place, the parameter array reachable
through the copy's base. -/
def rxMutated : Heap :=
  writeData rxCopied.1 (getBase rxCopied.1 rxCopied.2.baseRef).dataRef [99]

/-- A concrete base operator arriving with its `inverse` flag set. -/
def invBase : BaseOp := ⟨("S"), [0], 0, true, true, false⟩

/-- A concrete heap holding `invBase`. -/
def invHeap : Heap := ⟨[invBase], [[]]⟩

/-! ## Properties of the commutation rule engine -/

/-- The local-action table is pairwise consistent. -/
theorem actComm_symm : ∀ a b : LocalAct, actComm a b = actComm b a := by
  intro a b
  cases a <;> cases b <;> rfl

/-- The identity action commutes with every action. -/
theorem actComm_id (a : LocalAct) : actComm LocalAct.idAct a = true := by
  cases a <;> rfl

theorem sharesWire_eq_true_iff (A B : Operation) :
    sharesWire A B = true ↔ ∃ w, w ∈ A.wires ∧ w ∈ B.wires := by
  simp [sharesWire, List.any_eq_true]

theorem sharesWire_symm (A B : Operation) : sharesWire A B = sharesWire B A := by
  rw [Bool.eq_iff_iff, sharesWire_eq_true_iff, sharesWire_eq_true_iff]
  constructor
  · rintro ⟨w, h1, h2⟩; exact ⟨w, h2, h1⟩
  · rintro ⟨w, h1, h2⟩; exact ⟨w, h2, h1⟩

theorem commuteByTable_eq_true_iff (A B : Operation) :
    commuteByTable A B = true ↔
      ∀ w, w ∈ A.wires → w ∈ B.wires →
        actComm (localAct A w) (localAct B w) = true := by
  simp only [commuteByTable, List.all_eq_true, List.mem_filter, decide_eq_true_eq]
  constructor
  · intro h w hwA hwB; exact h w ⟨hwA, hwB⟩
  · intro h w hw; exact h w hw.1 hw.2

theorem commuteByTable_symm (A B : Operation) :
    commuteByTable A B = commuteByTable B A := by
  rw [Bool.eq_iff_iff, commuteByTable_eq_true_iff, commuteByTable_eq_true_iff]
  constructor
  · intro h w hB hA; rw [actComm_symm]; exact h w hA hB
  · intro h w hA hB; rw [actComm_symm]; exact h w hB hA

theorem beq_operation_symm (A B : Operation) : (A == B) = (B == A) := by
  by_cases h : A = B
  · subst h; rfl
  · rw [beq_eq_false_iff_ne.mpr h, beq_eq_false_iff_ne.mpr (Ne.symm h)]

theorem commutingCore_symm (A B : Operation) :
    commutingCore A B = commutingCore B A := by
  unfold commutingCore
  rw [sharesWire_symm A B, commuteByTable_symm A B,
    Bool.or_comm (nonCommuting A.kind) (nonCommuting B.kind), beq_operation_symm A B]

/-- C1: for every ordered pair of operators accepted by the rule engine
(both kinds in the recognized vocabulary, neither a multi-target
controlled operation), `commutes(A, B)` returns the same boolean as
`commutes(B, A)`. -/
theorem is_commuting_symm (A B : Operation)
    (hA : supported A.kind = true) (hB : supported B.kind = true)
    (hmA : multiTarget A = false) (hmB : multiTarget B = false) :
    is_commuting A B = is_commuting B A := by
  unfold is_commuting
  rw [hA, hB, hmA, hmB]
  simp only [Bool.true_eq_false, if_false, Bool.or_self]
  exact congrArg Except.ok (commutingCore_symm (simplify A) (simplify B))

/-- Witness for C1 at CNOT([0,1]) and PauliX([0]). -/
theorem is_commuting_symm_witness :
    supported (Operation.mk .CNOT [0, 1] []).kind = true ∧
    supported (Operation.mk .PauliX [0] []).kind = true ∧
    multiTarget (Operation.mk .CNOT [0, 1] []) = false ∧
    multiTarget (Operation.mk .PauliX [0] []) = false ∧
    is_commuting ⟨.CNOT, [0, 1], []⟩ ⟨.PauliX, [0], []⟩ =
      is_commuting ⟨.PauliX, [0], []⟩ ⟨.CNOT, [0, 1], []⟩ :=
  ⟨rfl, rfl, rfl, rfl, is_commuting_symm _ _ rfl rfl rfl rfl⟩

/-- C3: the engine fails with an unsupported-operation error whenever
either operand's kind is outside the recognized vocabulary or either
operand is a multi-target controlled operation; it never returns a
default boolean in these cases. -/
theorem is_commuting_unsupported (A B : Operation)
    (h : supported A.kind = false ∨ supported B.kind = false ∨
      multiTarget A = true ∨ multiTarget B = true) :
    isUnsupportedError (is_commuting A B) = true := by
  unfold is_commuting
  split
  · rfl
  · split
    · rfl
    · split
      · rfl
      · rename_i h1 h2 h3
        exfalso
        rcases h with h | h | h | h
        · exact h1 h
        · exact h2 h
        · exact h3 (by rw [h, Bool.true_or])
        · exact h3 (by rw [h, Bool.or_true])

/-- Witness for C3 at the unsupported QubitDensityMatrix kind. -/
theorem is_commuting_unsupported_witness :
    supported GateKind.QubitDensityMatrix = false ∧
    isUnsupportedError
      (is_commuting ⟨.QubitDensityMatrix, [0], []⟩ ⟨.PauliX, [0], []⟩) = true :=
  ⟨rfl, is_commuting_unsupported _ _ (Or.inl rfl)⟩

theorem zeroRotation_simplifyKP (op : Operation) (h : zeroRotation op = true) :
    simplifyKP op.kind op.params = (.Identity, []) := by
  obtain ⟨k, w, p⟩ := op
  unfold zeroRotation at h
  dsimp only at h
  show simplifyKP k p = (.Identity, [])
  split at h <;>
    first
      | (simp only [Bool.and_eq_true, beq_iff_eq] at h
         obtain ⟨⟨rfl, rfl⟩, rfl⟩ := h
         norm_num [simplifyKP])
      | cases h

theorem zeroRotation_supported (op : Operation) (h : zeroRotation op = true) :
    supported op.kind = true ∧ multiTarget op = false := by
  obtain ⟨k, w, p⟩ := op
  unfold zeroRotation at h
  dsimp only at h
  split at h <;> first | exact ⟨rfl, rfl⟩ | cases h

theorem nonCommuting_simplifyKP (k : GateKind) (p : List Rat) :
    nonCommuting (simplifyKP k p).1 = nonCommuting k := by
  unfold simplifyKP
  split <;> first | rfl | (split_ifs <;> rfl)

theorem localAct_identity (op : Operation) (w : Nat) (h : op.kind = .Identity) :
    localAct op w = .idAct := by
  unfold localAct
  rw [h]

/-- C2 (amended): a zero-angle, identity-equivalent parametrized
rotation commutes with every operator supported by the rule engine that
shares a wire with it, except the Barrier/QFT-type fences of the
non-commuting list, which commute with nothing else. -/
theorem zero_rotation_commutes (R B : Operation)
    (hR : zeroRotation R = true)
    (hBs : supported B.kind = true)
    (hBm : multiTarget B = false)
    (hBnc : nonCommuting B.kind = false)
    (_hshare : sharesWire R B = true) :
    is_commuting R B = .ok true := by
  obtain ⟨hRs, hRm⟩ := zeroRotation_supported R hR
  have hIk : (simplify R).kind = .Identity := by
    show (simplifyKP R.kind R.params).1 = .Identity
    rw [zeroRotation_simplifyKP R hR]
  have h3 : commuteByTable (simplify R) (simplify B) = true := by
    rw [commuteByTable_eq_true_iff]
    intro w _ _
    rw [localAct_identity _ w hIk]
    exact actComm_id _
  have h4 : nonCommuting (simplify R).kind = false := by rw [hIk]; rfl
  have h5 : nonCommuting (simplify B).kind = false := by
    show nonCommuting (simplifyKP B.kind B.params).1 = false
    rw [nonCommuting_simplifyKP]; exact hBnc
  unfold is_commuting
  rw [hRs, hBs, hRm, hBm]
  simp only [Bool.true_eq_false, if_false, Bool.or_self]
  refine congrArg Except.ok ?_
  simp [commutingCore, h3, h4, h5]

/-- Witness for C2 (amended) at CRX(0) on wires [0,1] and PauliZ([1]). -/
theorem zero_rotation_commutes_witness :
    zeroRotation ⟨.CRX, [0, 1], [0]⟩ = true ∧
    supported GateKind.PauliZ = true ∧
    multiTarget ⟨.PauliZ, [1], []⟩ = false ∧
    nonCommuting GateKind.PauliZ = false ∧
    sharesWire ⟨.CRX, [0, 1], [0]⟩ ⟨.PauliZ, [1], []⟩ = true ∧
    is_commuting ⟨.CRX, [0, 1], [0]⟩ ⟨.PauliZ, [1], []⟩ = .ok true := by
  refine ⟨by decide, rfl, rfl, rfl, rfl, ?_⟩
  exact zero_rotation_commutes _ _ (by decide) rfl rfl rfl rfl

/-- C2 counterexample: U3(0,0,0) is identity-equivalent and shares its
wire with the supported Barrier operator, yet the engine reports that
they do not commute (a barrier is an ordering fence). -/
theorem zero_rotation_barrier_cex :
    zeroRotation ⟨.U3, [0], [0, 0, 0]⟩ = true ∧
    supported GateKind.Barrier = true ∧
    multiTarget ⟨.Barrier, [0], []⟩ = false ∧
    sharesWire ⟨.U3, [0], [0, 0, 0]⟩ ⟨.Barrier, [0], []⟩ = true ∧
    is_commuting ⟨.U3, [0], [0, 0, 0]⟩ ⟨.Barrier, [0], []⟩ = .ok false := by
  refine ⟨by decide, rfl, rfl, rfl, by decide⟩

/-! ## Properties of the commutation DAG builder -/

theorem edgesFromPrior_lt {priors : List (Nat × Operation)} {j : Nat} {opj : Operation}
    {es : List (Nat × Nat)} (h : edgesFromPrior priors j opj = Except.ok es)
    (hb : ∀ x ∈ priors, x.1 < j) : ∀ e ∈ es, e.1 < e.2 := by
  induction priors generalizing es with
  | nil =>
      unfold edgesFromPrior at h
      cases h
      intro e he
      cases he
  | cons hd tl ih =>
      obtain ⟨i, opi⟩ := hd
      unfold edgesFromPrior at h
      split at h
      · cases h
      · rename_i tail htl
        have htail : ∀ e ∈ tail, e.1 < e.2 :=
          ih htl (fun x hx => hb x (List.mem_cons_of_mem _ hx))
        split at h
        · split at h
          · cases h
          · split at h
            · cases h
              exact htail
            · cases h
              intro e he
              rcases List.mem_cons.mp he with rfl | he
              · exact hb (i, opi) (List.mem_cons_self _ _)
              · exact htail e he
        · cases h
          exact htail

theorem buildEdgesAux_lt {ops : List Operation} :
    ∀ {done : List (Nat × Operation)} {acc es : List (Nat × Nat)},
    buildEdgesAux done acc ops = Except.ok es →
    (∀ x ∈ done, x.1 < done.length) →
    (∀ e ∈ acc, e.1 < e.2) →
    ∀ e ∈ es, e.1 < e.2 := by
  induction ops with
  | nil =>
      intro done acc es h _ hacc
      unfold buildEdgesAux at h
      cases h
      exact hacc
  | cons op rest ih =>
      intro done acc es h hdone hacc
      unfold buildEdgesAux at h
      split at h
      · cases h
      · rename_i es1 hes1
        refine ih h ?_ ?_
        · intro x hx
          rw [List.length_append, List.length_singleton]
          rcases List.mem_append.mp hx with hx | hx
          · exact Nat.lt_succ_of_lt (hdone x hx)
          · rcases List.mem_singleton.mp hx with rfl
            exact Nat.lt_succ_self _
        · intro e he
          rcases List.mem_append.mp he with he | he
          · exact hacc e he
          · exact edgesFromPrior_lt hes1 hdone e he

theorem reach_lt {E : List (Nat × Nat)} (hE : ∀ e ∈ E, e.1 < e.2) {i j : Nat}
    (h : Reach E i j) : i < j := by
  induction h with
  | step hmem => exact hE _ hmem
  | tail _ hmem ih => exact Nat.lt_trans ih (hE _ hmem)

/-- C4: in every DAG built by the Commutation DAG Builder, every edge
goes from an earlier insertion index to a strictly later one, every
transitively reachable node has a strictly larger index, and hence no
node is in its own transitive successor (or, symmetrically, predecessor)
set. -/
theorem commutation_dag_acyclic (ops obs : List Operation) (dag : CommutationDAG)
    (h : commutation_dag_from_sequence ops obs = .ok dag) :
    (∀ e ∈ dag.edges, e.1 < e.2) ∧
    (∀ i j, Reach dag.edges i j → i < j) ∧
    (∀ i, ¬ Reach dag.edges i i) := by
  have hedges : ∀ e ∈ dag.edges, e.1 < e.2 := by
    unfold commutation_dag_from_sequence at h
    split at h
    · cases h
    · rename_i es hes
      cases h
      exact buildEdgesAux_lt hes (fun x hx => absurd hx (List.not_mem_nil x))
        (fun e he => absurd he (List.not_mem_nil e))
  exact ⟨hedges, fun i j hr => reach_lt hedges hr,
    fun i hr => Nat.lt_irrefl i (reach_lt hedges hr)⟩

/-- Witness for C4 on the two-gate circuit PauliZ(0); PauliX(0), whose
DAG has the single edge (0, 1). -/
theorem commutation_dag_acyclic_witness :
    commutation_dag_from_sequence [⟨.PauliZ, [0], []⟩, ⟨.PauliX, [0], []⟩] [] =
      .ok ⟨[⟨.PauliZ, [0], []⟩, ⟨.PauliX, [0], []⟩], [(0, 1)], []⟩ ∧
    (0 : Nat) < 1 := by
  refine ⟨by decide, ?_⟩
  exact (commutation_dag_acyclic [⟨.PauliZ, [0], []⟩, ⟨.PauliX, [0], []⟩] []
    ⟨[⟨.PauliZ, [0], []⟩, ⟨.PauliX, [0], []⟩], [(0, 1)], []⟩ (by decide)).2.1 0 1
    (Reach.step (by decide))

/-- C5 counterexample: a quantum-function input that records no quantum
operation is rejected with a ValueError, not turned into an empty DAG. -/
theorem commutation_dag_empty_func_cex :
    commutation_dag (.func [] []) =
      .error (.valueError (("Function contains no quantum operation"))) := rfl

/-- C5 (amended): building from an empty operation *sequence* (an empty
tape) succeeds and yields the empty DAG — zero nodes, zero edges, empty
observables list — while a quantum-function input recording no quantum
operation raises a ValueError instead. -/
theorem commutation_dag_empty_tape :
    commutation_dag (.tape [] []) = .ok ⟨[], [], []⟩ ∧
    commutation_dag_from_sequence [] [] = .ok ⟨[], [], []⟩ := ⟨rfl, rfl⟩

/-! ## Properties of the symbolic power operator -/

/-- C6: `Pow.decomposition` first requests the base's native power
decomposition `base.pow(z)` and returns it on success; if that is
undefined and the exponent is a positive integer it returns the base
repeated `z` times; in every other failure case it fails with
`DecompositionUndefinedError`. -/
theorem pow_decomposition_spec (basePow : Rat → Option (List BaseOp)) (base : BaseOp)
    (z : Rat) :
    (∀ l, basePow z = some l → Pow.decomposition basePow base z = .ok l) ∧
    (basePow z = none → z.den = 1 → 0 < z.num →
      Pow.decomposition basePow base z = .ok (List.replicate z.num.toNat base)) ∧
    (basePow z = none → ¬(z.den = 1 ∧ 0 < z.num) →
      Pow.decomposition basePow base z = .error .decompositionUndefined) := by
  refine ⟨?_, ?_, ?_⟩
  · intro l hl
    unfold Pow.decomposition
    rw [hl]
  · intro hn h1 h2
    unfold Pow.decomposition
    rw [hn]
    simp [h1, h2]
  · intro hn h12
    unfold Pow.decomposition
    rw [hn]
    simp only [if_neg h12]

/-- Witness for C6: a base with no native power decomposition and
exponent 2 decomposes into two repetitions of the base. -/
theorem pow_decomposition_witness :
    (fun _ : Rat => (none : Option (List BaseOp))) 2 = none ∧
    (2 : Rat).den = 1 ∧ 0 < (2 : Rat).num ∧
    Pow.decomposition (fun _ => none) rxBase 2 = .ok [rxBase, rxBase] := by
  refine ⟨rfl, rfl, by decide, ?_⟩
  exact (pow_decomposition_spec (fun _ => none) rxBase 2).2.1 rfl rfl (by decide)

/-- C8: for an integer exponent (negative, zero or positive),
`Pow.compute_sparse_matrix` returns the base's sparse matrix raised to
that exponent, and it fails with `SparseMatrixUndefinedError` exactly
when the exponent is not an integer. -/
theorem pow_sparse_matrix_spec (baseMatPow : Int → List (List Rat)) (z : Rat) :
    (z.den = 1 → Pow.compute_sparse_matrix baseMatPow z = .ok (baseMatPow z.num)) ∧
    (z.den ≠ 1 → Pow.compute_sparse_matrix baseMatPow z = .error .sparseMatrixUndefined) := by
  constructor <;> intro h <;> simp [Pow.compute_sparse_matrix, h]

/-- Witness for C8 at the negative integer exponent -2 and the
non-integer exponent 1/2. -/
theorem pow_sparse_matrix_witness :
    ((-2 : Rat)).den = 1 ∧
    Pow.compute_sparse_matrix (fun n => [[(n : Rat)]]) (-2) = .ok [[((-2 : Int) : Rat)]] ∧
    (mkRat 1 2).den ≠ 1 ∧
    Pow.compute_sparse_matrix (fun n => [[(n : Rat)]]) (mkRat 1 2) =
      .error .sparseMatrixUndefined := by
  refine ⟨rfl, ?_, by decide, ?_⟩
  · exact (pow_sparse_matrix_spec (fun n => [[(n : Rat)]]) (-2)).1 rfl
  · exact (pow_sparse_matrix_spec (fun n => [[(n : Rat)]]) (mkRat 1 2)).2 (by decide)

/-- C7 counterexample: `Pow.__copy__` copies the base shallowly, so an
in-place mutation of the parameter array reached through the copy's base
changes the data seen through the original's base from [1] to [99]. -/
theorem pow_copy_shallow_cex :
    readData rxHeap (getBase rxHeap rxPow.baseRef) = [1] ∧
    rxCopied.2.baseRef ≠ rxPow.baseRef ∧
    readData rxMutated (getBase rxMutated rxPow.baseRef) = [99] := by decide

theorem getD_concat_length {α : Type} [Inhabited α] (l : List α) (a : α) :
    (l ++ [a]).getD l.length default = a := by
  induction l with
  | nil => rfl
  | cons x xs ih => exact ih

theorem getD_append_left {α : Type} [Inhabited α] (l m : List α) (i : Nat)
    (h : i < l.length) : (l ++ m).getD i default = l.getD i default := by
  induction l generalizing i with
  | nil => cases h
  | cons x xs ih =>
      cases i with
      | zero => rfl
      | succ n => simpa using ih n (Nat.lt_of_succ_lt_succ h)

/-- C7 (amended): `Pow.__copy__` preserves the exponent and the dynamic
class and allocates a *distinct* base object, but that base is a shallow
copy: its fields — including the reference to the mutable parameter
data — equal the original's, so nested parameter data is shared rather
than deep-copied, and the parameter arrays themselves are not
duplicated. -/
theorem pow_copy_amended (h : Heap) (p : PowObj) (hr : p.baseRef < h.bases.length) :
    (Pow.copy h p).2.z = p.z ∧
    (Pow.copy h p).2.powClass = p.powClass ∧
    (Pow.copy h p).2.baseRef ≠ p.baseRef ∧
    getBase (Pow.copy h p).1 (Pow.copy h p).2.baseRef = getBase h p.baseRef ∧
    getBase (Pow.copy h p).1 p.baseRef = getBase h p.baseRef ∧
    (Pow.copy h p).1.arrays = h.arrays := by
  refine ⟨rfl, rfl, ?_, ?_, ?_, rfl⟩
  · exact Nat.ne_of_gt hr
  · exact getD_concat_length h.bases (getBase h p.baseRef)
  · exact getD_append_left h.bases [getBase h p.baseRef] p.baseRef hr

/-- Witness for C7 (amended) on the concrete heap `rxHeap`. -/
theorem pow_copy_amended_witness :
    rxPow.baseRef < rxHeap.bases.length ∧
    rxCopied.2.z = rxPow.z ∧
    rxCopied.2.powClass = rxPow.powClass ∧
    getBase rxCopied.1 rxCopied.2.baseRef = getBase rxHeap rxPow.baseRef := by
  refine ⟨by decide, ?_, ?_, ?_⟩
  · exact (pow_copy_amended rxHeap rxPow (by decide)).1
  · exact (pow_copy_amended rxHeap rxPow (by decide)).2.1
  · exact (pow_copy_amended rxHeap rxPow (by decide)).2.2.2.1

/-- C9 counterexample: constructing `Pow(base, 2)` on a base whose
`inverse` flag is set clears that flag in place (and negates the
exponent), so the supplied base does *not* keep all its attributes. -/
theorem pow_init_mutates_cex :
    (getBase invHeap 0).inverse = true ∧
    (getBase (Pow.init invHeap 0 2).1 0).inverse = false ∧
    (Pow.init invHeap 0 2).2.z = -2 := by decide

theorem getD_set_self {α : Type} [Inhabited α] (l : List α) (i : Nat) (a : α)
    (h : i < l.length) : (l.set i a).getD i default = a := by
  induction l generalizing i with
  | nil => cases h
  | cons x xs ih =>
      cases i with
      | zero => rfl
      | succ n => simpa using ih n (Nat.lt_of_succ_lt_succ h)

theorem getD_set_ne {α : Type} [Inhabited α] (l : List α) (i j : Nat) (a : α)
    (h : j ≠ i) : (l.set i a).getD j default = l.getD j default := by
  induction l generalizing i j with
  | nil => rfl
  | cons x xs ih =>
      cases i with
      | zero =>
          cases j with
          | zero => exact absurd rfl h
          | succ m => rfl
      | succ n =>
          cases j with
          | zero => rfl
          | succ m => simpa using ih n m (fun hx => h (congrArg Nat.succ hx))

/-- C9 (amended): `Pow.__init__` leaves the supplied base untouched when
its `inverse` flag is clear; when the flag is set, the only mutation is
clearing that flag (folding the inversion into a negated exponent):
every other base object and all parameter arrays are unchanged. -/
theorem pow_init_frame (h : Heap) (r : Nat) (z : Rat) (hr : r < h.bases.length) :
    ((getBase h r).inverse = false →
      (Pow.init h r z).1 = h ∧ (Pow.init h r z).2.z = z) ∧
    ((getBase h r).inverse = true →
      getBase (Pow.init h r z).1 r = { getBase h r with inverse := false } ∧
      (Pow.init h r z).2.z = -z ∧
      (Pow.init h r z).1.arrays = h.arrays ∧
      (∀ r2, r2 ≠ r → getBase (Pow.init h r z).1 r2 = getBase h r2)) := by
  constructor
  · intro hinv
    simp only [Pow.init, hinv]
    exact ⟨rfl, rfl⟩
  · intro hinv
    simp only [Pow.init, hinv]
    refine ⟨?_, rfl, rfl, ?_⟩
    · exact getD_set_self h.bases r _ hr
    · intro r2 hr2
      exact getD_set_ne h.bases r r2 _ hr2

/-- Witness for C9 (amended), exercising both the untouched-base case
(`rxHeap`) and the inverse-folding case (`invHeap`). -/
theorem pow_init_frame_witness :
    rxPow.baseRef < rxHeap.bases.length ∧
    (getBase rxHeap 0).inverse = false ∧
    (Pow.init rxHeap 0 2).1 = rxHeap ∧
    (getBase invHeap 0).inverse = true ∧
    getBase (Pow.init invHeap 0 2).1 0 = { getBase invHeap 0 with inverse := false } ∧
    (Pow.init invHeap 0 2).2.z = -2 := by
  refine ⟨by decide, rfl, ?_, rfl, ?_, ?_⟩
  · exact ((pow_init_frame rxHeap 0 2 (by decide)).1 rfl).1
  · exact ((pow_init_frame invHeap 0 2 (by decide)).2 rfl).1
  · exact ((pow_init_frame invHeap 0 2 (by decide)).2 rfl).2.1

/-- C10: for a `Pow` whose base is an Operation (so the `PowOperation`
mix-in applies), the `inverse` property always returns `False`,
assigning `True` raises `NotImplementedError`, assigning `False` is
silently accepted, every accepted assignment leaves `inverse` at
`False`, and inversion is expressed only by negating the exponent
(`inv`), which also leaves `inverse` at `False`. -/
theorem pow_inverse_spec (p : PowObj) (b : Bool) (q : PowObj)
    (_hc : p.powClass = .operation ∨ p.powClass = .operationObservable) :
    PowOperation.inverse p = false ∧
    PowOperation.setInverse p true =
      .error (("The inverse can not be set for a power operator")) ∧
    PowOperation.setInverse p false = .ok p ∧
    (PowOperation.setInverse p b = .ok q → PowOperation.inverse q = false) ∧
    (∀ h : Heap, (PowOperation.inv h p).z = -p.z ∧
      PowOperation.inverse (PowOperation.inv h p) = false) :=
  ⟨rfl, rfl, rfl, fun _ => rfl, fun _ => ⟨rfl, rfl⟩⟩

/-- Witness for C10 on the concrete `Pow(RX, 2)` object. -/
theorem pow_inverse_spec_witness :
    rxPow.powClass = .operation ∧
    PowOperation.inverse rxPow = false ∧
    PowOperation.setInverse rxPow false = .ok rxPow ∧
    PowOperation.inverse rxPow = false :=
  ⟨rfl, (pow_inverse_spec rxPow false rxPow (Or.inl rfl)).1,
    (pow_inverse_spec rxPow false rxPow (Or.inl rfl)).2.2.1,
    (pow_inverse_spec rxPow false rxPow (Or.inl rfl)).2.2.2.1 rfl⟩

end Spec2Proof
